import Mathlib

/-!
Verification of the Pong simulation core (`src/main.rs`).

The game state is embedded shallowly: 2D vectors of `f32` become pairs of
rationals, Bevy components (`Position`, `Velocity`, `Shape`) become fields of
plain structures, and each Bevy system becomes a pure function from the data
it queries to the data it mutates.  All numeric comparisons the claims touch
are sign tests and exact comparisons on small values, which `ℚ` reproduces
faithfully.
-/

namespace Pong

/-- A 2D vector, modelling `bevy::math::Vec2` (components were `f32`). -/
structure Vec2 where
  x : ℚ
  y : ℚ
  deriving DecidableEq, Repr

instance : Add Vec2 := ⟨fun a b => ⟨a.x + b.x, a.y + b.y⟩⟩
instance : Sub Vec2 := ⟨fun a b => ⟨a.x - b.x, a.y - b.y⟩⟩
instance : HMul Vec2 ℚ Vec2 := ⟨fun v q => ⟨v.x * q, v.y * q⟩⟩
instance : HDiv Vec2 ℚ Vec2 := ⟨fun v q => ⟨v.x / q, v.y / q⟩⟩

@[simp]
theorem Vec2.add_def (a b : Vec2) : a + b = ⟨a.x + b.x, a.y + b.y⟩ := rfl

@[simp]
theorem Vec2.sub_def (a b : Vec2) : a - b = ⟨a.x - b.x, a.y - b.y⟩ := rfl

@[simp]
theorem Vec2.smul_def (v : Vec2) (q : ℚ) : v * q = ⟨v.x * q, v.y * q⟩ := rfl

@[simp]
theorem Vec2.sdiv_def (v : Vec2) (q : ℚ) : v / q = ⟨v.x / q, v.y / q⟩ := rfl

/-- Constants from the top of `main.rs`. -/
def BALL_SIZE : ℚ := 5

def PADDLE_SPEED : ℚ := 1

def PADDLE_WIDTH : ℚ := 10

def PADDLE_HEIGHT : ℚ := 50

def GUTTER_HEIGHT : ℚ := 20

/-- The `Collision` enum: the side of the box that the ball hit. -/
inductive Collision where
  | Left
  | Right
  | Top
  | Bottom
  deriving DecidableEq, Repr

/-- The `Scorer` enum: which paddle scored. -/
inductive Scorer where
  | Ai
  | Player
  deriving DecidableEq, Repr

/-- `bevy::math::bounding::Aabb2d`: an axis-aligned box stored by its two
corners. -/
structure Aabb2d where
  min : Vec2
  max : Vec2
  deriving DecidableEq, Repr

/-- `Aabb2d::new(center, half_size)`: corners are center ∓ half-size. -/
def Aabb2d.new (center halfSize : Vec2) : Aabb2d :=
  ⟨center - halfSize, center + halfSize⟩

/-- glam's scalar clamp as used by `Vec2::clamp`: `self.max(min).min(max)`. -/
def clampQ (v lo hi : ℚ) : ℚ :=
  min (max v lo) hi

/-- `Aabb2d::closest_point(point)`: clamp the point into the box,
componentwise. -/
def Aabb2d.closestPoint (aabb : Aabb2d) (p : Vec2) : Vec2 :=
  ⟨clampQ p.x aabb.min.x aabb.max.x, clampQ p.y aabb.min.y aabb.max.y⟩

/-- Squared euclidean distance between two points
(`Vec2::distance_squared`). -/
def distSq (a b : Vec2) : ℚ :=
  (a.x - b.x) * (a.x - b.x) + (a.y - b.y) * (a.y - b.y)

/-- `BoundingCircle`: center plus radius. -/
structure BoundingCircle where
  center : Vec2
  radius : ℚ
  deriving DecidableEq, Repr

/-- `BoundingCircle::intersects(&Aabb2d)` from bevy: squared distance from
the circle center to the closest point of the box is at most radius². -/
def BoundingCircle.intersects (ball : BoundingCircle) (aabb : Aabb2d) : Bool :=
  decide (distSq ball.center (aabb.closestPoint ball.center) ≤ ball.radius * ball.radius)

/-- `collide_with_side` from `main.rs`: `None` when the circle misses the
box; otherwise classify the hit side from the offset between the circle
center and the closest point of the box. -/
def collide_with_side (ball : BoundingCircle) (wall : Aabb2d) : Option Collision :=
  if ¬ ball.intersects wall then
    none
  else
    let closest_point := wall.closestPoint ball.center
    let offset := ball.center - closest_point
    let side :=
      if |offset.x| > |offset.y| then
        if offset.x < 0 then Collision.Left else Collision.Right
      else if offset.y > 0 then Collision.Top
      else Collision.Bottom
    some side

/-- The ball's queried components in `handle_collisions` and the movement /
scoring systems: `Position`, `Velocity`, `Shape`. -/
structure BallState where
  position : Vec2
  velocity : Vec2
  shape : Vec2
  deriving DecidableEq, Repr

/-- The state touched by `handle_collisions`: the single ball plus every
non-ball entity carrying `Position` and `Shape` (paddles and gutters),
each listed as its (position, shape) pair. -/
structure GameState where
  ball : BallState
  others : List (Vec2 × Vec2)
  deriving DecidableEq, Repr

/-- One arm of the `match collision` in `handle_collisions`: `Left`/`Right`
multiply `velocity.x` by `-1`, `Top`/`Bottom` multiply `velocity.y` by `-1`. -/
def applyCollision (v : Vec2) (c : Collision) : Vec2 :=
  match c with
  | Collision.Left => ⟨v.x * (-1), v.y⟩
  | Collision.Right => ⟨v.x * (-1), v.y⟩
  | Collision.Top => ⟨v.x, v.y * (-1)⟩
  | Collision.Bottom => ⟨v.x, v.y * (-1)⟩

/-- The collision test `handle_collisions` runs for one non-ball entity:
the ball as a circle of radius `shape.x` against the entity's box of
half-extent `shape / 2`. -/
def collideBox (ball : BallState) (other : Vec2 × Vec2) : Option Collision :=
  collide_with_side (BoundingCircle.mk ball.position ball.shape.x)
    (Aabb2d.new other.1 (other.2 / (2 : ℚ)))

/-- `handle_collisions`: fold the velocity reflections of every non-ball
entity over the ball's velocity.  Only `Velocity` is behind a `&mut`
borrow in the Rust query; every `Position` and `Shape` is read-only. -/
def handle_collisions (s : GameState) : GameState :=
  { s with
    ball :=
      { s.ball with
        velocity :=
          s.others.foldl
            (fun v other =>
              match collideBox s.ball other with
              | some collision => applyCollision v collision
              | none => v)
            s.ball.velocity } }

/-- `move_ball`: `position += velocity`, unconditionally. -/
def move_ball (b : BallState) : BallState :=
  { b with position := b.position + b.velocity }

/-- A paddle's `Position` and `Velocity` as queried by `move_paddles`. -/
structure PaddleState where
  position : Vec2
  velocity : Vec2
  deriving DecidableEq, Repr

/-- `move_paddles` for one paddle: commit `position + velocity * PADDLE_SPEED`
only when the candidate's `|y|` stays strictly below
`window_height / 2 - GUTTER_HEIGHT - PADDLE_HEIGHT / 2`. -/
def move_paddles (windowHeight : ℚ) (p : PaddleState) : PaddleState :=
  let max_y := windowHeight / 2 - GUTTER_HEIGHT - PADDLE_HEIGHT / 2
  let new_position := p.position + p.velocity * PADDLE_SPEED
  if |new_position.y| < max_y then { p with position := new_position } else p

/-- Models Rust's `f32::signum` on the well-signed floats that arise here:
`1` for positive values and positive zero, `-1` for negative values.
(Rust documents `signum(+0.0) = 1.0`; a difference `a - b` of equal finite
floats is `+0.0`.) -/
def signumQ (q : ℚ) : ℚ :=
  if q < 0 then -1 else 1

/-- `move_ai`: overwrite the Ai paddle's `velocity.y` with the signum of
`(ball.position - ai.position).y`. -/
def move_ai (aiVelocity : Vec2) (aiPosition ballPosition : Vec2) : Vec2 :=
  let a_to_b := ballPosition - aiPosition
  ⟨aiVelocity.x, signumQ a_to_b.y⟩

/-- `detect_scoring`: emit `Scored(Ai)` when the ball is past the right
edge, `Scored(Player)` when past the left edge, nothing otherwise. -/
def detect_scoring (windowWidth : ℚ) (ballPosition : Vec2) : Option Scorer :=
  if ballPosition.x > windowWidth / 2 then some Scorer.Ai
  else if ballPosition.x < -(windowWidth / 2) then some Scorer.Player
  else none

/-- One event's effect in `reset_ball`: position `(0,0)`, velocity `(-1,1)`
when Ai scored and `(1,1)` when the player scored. -/
def resetBallOnEvent (b : BallState) (event : Scorer) : BallState :=
  match event with
  | Scorer.Ai => { b with position := ⟨0, 0⟩, velocity := ⟨-1, 1⟩ }
  | Scorer.Player => { b with position := ⟨0, 0⟩, velocity := ⟨1, 1⟩ }

/-- `reset_ball`: process every pending `Scored` event in arrival order. -/
def reset_ball (b : BallState) (events : List Scorer) : BallState :=
  events.foldl resetBallOnEvent b

/-- Scoring detection followed by the reset reaction on this tick's event
queue (the queue holds the event detection just emitted, if any). -/
def detectThenReset (windowWidth : ℚ) (b : BallState) : BallState :=
  reset_ball b (detect_scoring windowWidth b.position).toList

/-- The modulus of the `u32` score counters. -/
def U32MOD : ℕ := 2 ^ 32

/-- The `Score` resource: two `u32` counters, held as naturals below
`U32MOD`. -/
structure Score where
  player : ℕ
  ai : ℕ
  deriving DecidableEq, Repr

/-- One event's effect in `update_score`: a `u32` `+= 1`, which wraps to
`0` at `2^32` in release builds (debug builds panic at the same point, so
either way the counter's growth stops there). -/
def updateScoreOnEvent (s : Score) (event : Scorer) : Score :=
  match event with
  | Scorer.Ai => { s with ai := (s.ai + 1) % U32MOD }
  | Scorer.Player => { s with player := (s.player + 1) % U32MOD }

/-- `update_score`: process every pending `Scored` event in arrival order. -/
def update_score (s : Score) (events : List Scorer) : Score :=
  events.foldl updateScoreOnEvent s

/-- `spawn_paddles`: the player paddle's x coordinate,
`window_width / 2 - padding` with `padding = 50`. -/
def player_paddle_x (windowWidth : ℚ) : ℚ :=
  windowWidth / 2 - 50

/-- `spawn_paddles`: the Ai paddle's x coordinate,
`-window_width / 2 + padding` with `padding = 50`. -/
def ai_paddle_x (windowWidth : ℚ) : ℚ :=
  -(windowWidth / 2) + 50

/-- The ball spawned by `spawn_ball` via `BallBundle::new(1., 1.)`:
position `(0,0)`, velocity `(1,1)`, shape `(BALL_SIZE, BALL_SIZE)`. -/
def spawnedBall : BallState :=
  ⟨⟨0, 0⟩, ⟨1, 1⟩, ⟨BALL_SIZE, BALL_SIZE⟩⟩

/-- The ten systems registered on the `Update` schedule in `main`. -/
inductive Sys where
  | move_ball
  | handle_player_input
  | detect_scoring
  | move_ai
  | reset_ball
  | update_score
  | project_positions
  | handle_collisions
  | move_paddles
  | update_scoreboard
  deriving DecidableEq, Repr

/-- All `Update` systems, as registered in `main`. -/
def updateSystems : List Sys :=
  [Sys.move_ball, Sys.handle_player_input, Sys.detect_scoring, Sys.move_ai,
   Sys.reset_ball, Sys.update_score, Sys.project_positions,
   Sys.handle_collisions, Sys.move_paddles, Sys.update_scoreboard]

/-- The ordering constraints declared in `main`: each `a.after(b)` call
contributes the pair `(b, a)`, read "b runs before a". -/
def scheduleEdges : List (Sys × Sys) :=
  [(Sys.detect_scoring, Sys.reset_ball),
   (Sys.detect_scoring, Sys.update_score),
   (Sys.move_ball, Sys.project_positions),
   (Sys.move_ball, Sys.handle_collisions),
   (Sys.handle_player_input, Sys.move_paddles),
   (Sys.update_score, Sys.update_scoreboard)]

/-- An execution order the Bevy scheduler may choose for one tick: a
permutation of the registered systems in which every declared `.after`
constraint is satisfied.  The scheduler guarantees nothing beyond these
declared constraints. -/
def RespectsSchedule (order : List Sys) : Prop :=
  order.Perm updateSystems ∧
    ∀ e ∈ scheduleEdges, order.indexOf e.1 < order.indexOf e.2

/-- Every ball state producible by the systems that write the ball's
components: spawn (`BallBundle::new(1., 1.)` at the origin), ball movement,
collision handling against an arbitrary set of non-ball entities, and the
scoring reset with an arbitrary event queue.  No other system writes the
ball. -/
inductive BallReachable : BallState → Prop where
  | init : BallReachable spawnedBall
  | move {b : BallState} : BallReachable b → BallReachable (move_ball b)
  | collide {b : BallState} (others : List (Vec2 × Vec2)) :
      BallReachable b → BallReachable (handle_collisions ⟨b, others⟩).ball
  | reset {b : BallState} (events : List Scorer) :
      BallReachable b → BallReachable (reset_ball b events)

/-- C1: `collide_with_side` returns `none` exactly when the squared
distance from the circle center to the closest box point exceeds radius²;
on intersection it classifies the side from
`offset = circle_center - closest_point` with a strict `>` horizontal
test, so an exact tie `|offset.x| = |offset.y|` never yields
`Left`/`Right`. -/
theorem collide_with_side_characterization (c : Vec2) (r : ℚ) (bc he : Vec2) :
    (distSq c ((Aabb2d.new bc he).closestPoint c) > r * r →
      collide_with_side ⟨c, r⟩ (Aabb2d.new bc he) = none) ∧
    (distSq c ((Aabb2d.new bc he).closestPoint c) ≤ r * r →
      ((|(c - (Aabb2d.new bc he).closestPoint c).x| >
          |(c - (Aabb2d.new bc he).closestPoint c).y| →
        ((c - (Aabb2d.new bc he).closestPoint c).x < 0 →
          collide_with_side ⟨c, r⟩ (Aabb2d.new bc he) = some Collision.Left) ∧
        (0 ≤ (c - (Aabb2d.new bc he).closestPoint c).x →
          collide_with_side ⟨c, r⟩ (Aabb2d.new bc he) = some Collision.Right)) ∧
       (¬ |(c - (Aabb2d.new bc he).closestPoint c).x| >
          |(c - (Aabb2d.new bc he).closestPoint c).y| →
        ((0 < (c - (Aabb2d.new bc he).closestPoint c).y →
          collide_with_side ⟨c, r⟩ (Aabb2d.new bc he) = some Collision.Top) ∧
         (¬ 0 < (c - (Aabb2d.new bc he).closestPoint c).y →
          collide_with_side ⟨c, r⟩ (Aabb2d.new bc he) = some Collision.Bottom))))) ∧
    (|(c - (Aabb2d.new bc he).closestPoint c).x| =
        |(c - (Aabb2d.new bc he).closestPoint c).y| →
      collide_with_side ⟨c, r⟩ (Aabb2d.new bc he) ≠ some Collision.Left ∧
      collide_with_side ⟨c, r⟩ (Aabb2d.new bc he) ≠ some Collision.Right) := by
  set wall := Aabb2d.new bc he with hwall
  set closest := wall.closestPoint c with hclosest
  set offset := c - closest with hoffset
  refine ⟨?_, ?_, ?_⟩
  · intro hfar
    simp only [collide_with_side, BoundingCircle.intersects]
    rw [if_pos]
    simp only [hclosest.symm, decide_eq_true_eq]
    exact not_le.mpr hfar
  · intro hnear
    have hint : ¬ ¬ (BoundingCircle.intersects ⟨c, r⟩ wall = true) := by
      simp only [BoundingCircle.intersects, decide_eq_true_eq, not_not, hclosest.symm]
      exact hnear
    refine ⟨fun habs => ⟨fun hneg => ?_, fun hpos => ?_⟩,
      fun habs => ⟨fun hup => ?_, fun hdown => ?_⟩⟩ <;>
      · simp only [collide_with_side, if_neg hint]
        simp only [hwall.symm, hclosest.symm, hoffset.symm]
        first
        | rw [if_pos habs, if_pos hneg]
        | rw [if_pos habs, if_neg (not_lt.mpr hpos)]
        | rw [if_neg habs, if_pos hup]
        | rw [if_neg habs, if_neg hdown]
  · intro htie
    by_cases hint : ¬ (BoundingCircle.intersects ⟨c, r⟩ wall = true)
    · simp only [collide_with_side, if_pos hint]
      exact ⟨Option.noConfusion, Option.noConfusion⟩
    · have hnotgt : ¬ |offset.x| > |offset.y| := by rw [htie]; exact lt_irrefl _
      simp only [collide_with_side, if_neg hint, hwall.symm, hclosest.symm, hoffset.symm,
        if_neg hnotgt]
      by_cases hy : 0 < offset.y
      · rw [if_pos hy]
        exact ⟨fun h => Collision.noConfusion (Option.some.inj h),
          fun h => Collision.noConfusion (Option.some.inj h)⟩
      · rw [if_neg hy]
        exact ⟨fun h => Collision.noConfusion (Option.some.inj h),
          fun h => Collision.noConfusion (Option.some.inj h)⟩

/-- C1 witness: a concrete circle overlapping a concrete box from the left
is classified `Left`. -/
theorem collide_with_side_characterization_witness :
    collide_with_side ⟨⟨0, 0⟩, 5⟩ (Aabb2d.new ⟨3, 0⟩ ⟨1, 1⟩) = some Collision.Left :=
  (((collide_with_side_characterization ⟨0, 0⟩ 5 ⟨3, 0⟩ ⟨1, 1⟩).2.1
    (by norm_num [distSq, Aabb2d.new, Aabb2d.closestPoint, clampQ, min_def, max_def])).1
    (by norm_num [Aabb2d.new, Aabb2d.closestPoint, clampQ, min_def, max_def])).1
    (by norm_num [Aabb2d.new, Aabb2d.closestPoint, clampQ, min_def, max_def])

/-- C2: with a nonnegative field width, a ball past the right edge is reset
to position `(0,0)` with velocity `(-1,1)`; past the left edge, to `(0,0)`
with velocity `(1,1)`; in between, no event is emitted and detection plus
reaction leave the ball unchanged. -/
theorem detect_then_reset_spec (w : ℚ) (b : BallState) (hw : 0 ≤ w) :
    (b.position.x > w / 2 →
      detectThenReset w b = { b with position := ⟨0, 0⟩, velocity := ⟨-1, 1⟩ }) ∧
    (b.position.x < -(w / 2) →
      detectThenReset w b = { b with position := ⟨0, 0⟩, velocity := ⟨1, 1⟩ }) ∧
    (-(w / 2) ≤ b.position.x → b.position.x ≤ w / 2 →
      detect_scoring w b.position = none ∧ detectThenReset w b = b) := by
  refine ⟨fun hr => ?_, fun hl => ?_, fun h1 h2 => ?_⟩
  · simp [detectThenReset, detect_scoring, if_pos hr, reset_ball, resetBallOnEvent]
  · have hnr : ¬ b.position.x > w / 2 := by
      intro hr
      have : w / 2 < -(w / 2) := lt_trans hr hl
      linarith
    simp [detectThenReset, detect_scoring, if_neg hnr, if_pos hl, reset_ball,
      resetBallOnEvent]
  · have hnr : ¬ b.position.x > w / 2 := not_lt.mpr h2
    have hnl : ¬ b.position.x < -(w / 2) := not_lt.mpr h1
    simp [detectThenReset, detect_scoring, if_neg hnr, if_neg hnl, reset_ball]

/-- C2 witness: width `4`, ball at `x = 3 > 4/2`, reset to the origin with
velocity `(-1,1)`. -/
theorem detect_then_reset_spec_witness :
    detectThenReset 4 ⟨⟨3, 0⟩, ⟨1, 1⟩, ⟨5, 5⟩⟩ =
      { position := ⟨0, 0⟩, velocity := ⟨-1, 1⟩, shape := ⟨5, 5⟩ } :=
  (detect_then_reset_spec 4 ⟨⟨3, 0⟩, ⟨1, 1⟩, ⟨5, 5⟩⟩ (by norm_num)).1 (by norm_num)

/-- C3 counterexample: with the ball's `y` equal to the Ai paddle's `y`
(both at the origin), `move_ai` sets `velocity.y` to `1`, not to `0` as the
claim states — Rust's `f32::signum(+0.0)` is `1.0`, not `0.0`. -/
theorem move_ai_zero_delta_counterexample :
    (move_ai ⟨0, 0⟩ ⟨0, 0⟩ ⟨0, 0⟩).y ≠ 0 ∧ (move_ai ⟨0, 0⟩ ⟨0, 0⟩ ⟨0, 0⟩).y = 1 := by
  constructor <;> norm_num [move_ai, signumQ]

/-- C3 amended: `move_ai` sets the Ai paddle's `velocity.y` to `1` when the
ball is strictly above, `-1` when strictly below, and `1` (not `0`) when the
two `y` coordinates are equal; `velocity.x` is left unchanged. -/
theorem move_ai_signum (aiVel aiPos ballPos : Vec2) :
    (aiPos.y < ballPos.y → (move_ai aiVel aiPos ballPos).y = 1) ∧
    (ballPos.y < aiPos.y → (move_ai aiVel aiPos ballPos).y = -1) ∧
    (ballPos.y = aiPos.y → (move_ai aiVel aiPos ballPos).y = 1) ∧
    (move_ai aiVel aiPos ballPos).x = aiVel.x := by
  refine ⟨fun hup => ?_, fun hdown => ?_, fun heq => ?_, rfl⟩
  · have : ¬ ballPos.y - aiPos.y < 0 := by linarith
    simp [move_ai, signumQ, this]
  · have : ballPos.y - aiPos.y < 0 := by linarith
    simp [move_ai, signumQ, this]
  · have : ¬ ballPos.y - aiPos.y < 0 := by rw [heq]; simp
    simp [move_ai, signumQ, this]

/-- C3 amended witness: Ai paddle at `y = 0`, ball at `y = 5`, the new
`velocity.y` is `1`. -/
theorem move_ai_signum_witness :
    (move_ai ⟨0, 0⟩ ⟨0, 0⟩ ⟨0, 5⟩).y = 1 :=
  (move_ai_signum ⟨0, 0⟩ ⟨0, 0⟩ ⟨0, 5⟩).1 (by norm_num)

/-- C4 counterexample: with a 200-wide window the Ai paddle sits at
negative `x` and the player paddle at positive `x`; after `Scored(Ai)` the
reset velocity's `x` is `-1`, pointing toward (not away from) the Ai
paddle's side, and after `Scored(Player)` it is `1`, pointing toward the
player paddle's side. -/
theorem reset_launch_direction_counterexample :
    ai_paddle_x 200 < 0 ∧
    ¬ (0 < (resetBallOnEvent spawnedBall Scorer.Ai).velocity.x) ∧
    0 < player_paddle_x 200 ∧
    ¬ ((resetBallOnEvent spawnedBall Scorer.Player).velocity.x < 0) := by
  refine ⟨?_, ?_, ?_, ?_⟩ <;>
    norm_num [ai_paddle_x, player_paddle_x, resetBallOnEvent, spawnedBall]

/-- C4 amended: for every window wide enough that the paddles sit on
opposite sides of the center (`w > 100`), the reset launches the ball
toward the side of the paddle that DID just score: after `Scored(Ai)` the
new `velocity.x` has the sign of the Ai paddle's `x`, and after
`Scored(Player)` the sign of the player paddle's `x`. -/
theorem reset_launch_direction (w : ℚ) (b : BallState) (hw : 100 < w) :
    0 < (resetBallOnEvent b Scorer.Ai).velocity.x * ai_paddle_x w ∧
    0 < (resetBallOnEvent b Scorer.Player).velocity.x * player_paddle_x w := by
  constructor <;>
    · simp [resetBallOnEvent, ai_paddle_x, player_paddle_x]
      linarith

/-- C4 amended witness: window width `200`. -/
theorem reset_launch_direction_witness :
    0 < (resetBallOnEvent spawnedBall Scorer.Ai).velocity.x * ai_paddle_x 200 ∧
    0 < (resetBallOnEvent spawnedBall Scorer.Player).velocity.x * player_paddle_x 200 :=
  reset_launch_direction 200 spawnedBall (by norm_num)

/-- C5: `move_paddles` commits `position + velocity * PADDLE_SPEED` exactly
when the candidate's `|y|` is strictly below
`max_y = window_height/2 - GUTTER_HEIGHT - PADDLE_HEIGHT/2`, and otherwise
leaves the paddle exactly where it was; hence `|position.y| ≤ max_y` is
preserved by every tick. -/
theorem move_paddles_spec (h : ℚ) (p : PaddleState) :
    (|(p.position + p.velocity * PADDLE_SPEED).y| <
        h / 2 - GUTTER_HEIGHT - PADDLE_HEIGHT / 2 →
      move_paddles h p = { p with position := p.position + p.velocity * PADDLE_SPEED }) ∧
    (¬ |(p.position + p.velocity * PADDLE_SPEED).y| <
        h / 2 - GUTTER_HEIGHT - PADDLE_HEIGHT / 2 →
      move_paddles h p = p) ∧
    (|p.position.y| ≤ h / 2 - GUTTER_HEIGHT - PADDLE_HEIGHT / 2 →
      |(move_paddles h p).position.y| ≤ h / 2 - GUTTER_HEIGHT - PADDLE_HEIGHT / 2) := by
  refine ⟨fun hin => ?_, fun hout => ?_, fun hstart => ?_⟩
  · simp only [move_paddles]
    rw [if_pos hin]
  · simp only [move_paddles]
    rw [if_neg hout]
  · by_cases hin : |(p.position + p.velocity * PADDLE_SPEED).y| <
        h / 2 - GUTTER_HEIGHT - PADDLE_HEIGHT / 2
    · simp only [move_paddles, if_pos hin]
      exact le_of_lt hin
    · simp only [move_paddles, if_neg hin]
      exact hstart

/-- C5 witness: height `200` (so `max_y = 55`), paddle at the origin moving
up commits to `y = 1`. -/
theorem move_paddles_spec_witness :
    move_paddles 200 ⟨⟨0, 0⟩, ⟨0, 1⟩⟩ = { position := ⟨0, 1⟩, velocity := ⟨0, 1⟩ } := by
  have h := (move_paddles_spec 200 ⟨⟨0, 0⟩, ⟨0, 1⟩⟩).1
    (by norm_num [PADDLE_SPEED, GUTTER_HEIGHT, PADDLE_HEIGHT])
  simpa [PADDLE_SPEED] using h

/-- C6: each resolved side negates exactly one velocity component
(`Left`/`Right` the `x`, `Top`/`Bottom` the `y`), with no deduplication
across entities; consequently a tick whose two non-ball entities both
resolve to a horizontal side leaves `velocity.x` equal to its pre-tick
value. -/
theorem double_horizontal_hit_cancels (s : GameState) (b1 b2 : Vec2 × Vec2)
    (c1 c2 : Collision)
    (hothers : s.others = [b1, b2])
    (h1 : collideBox s.ball b1 = some c1)
    (h2 : collideBox s.ball b2 = some c2)
    (hc1 : c1 = Collision.Left ∨ c1 = Collision.Right)
    (hc2 : c2 = Collision.Left ∨ c2 = Collision.Right) :
    (handle_collisions s).ball.velocity.x = s.ball.velocity.x ∧
    (∀ v : Vec2,
      applyCollision v Collision.Left = ⟨-v.x, v.y⟩ ∧
      applyCollision v Collision.Right = ⟨-v.x, v.y⟩ ∧
      applyCollision v Collision.Top = ⟨v.x, -v.y⟩ ∧
      applyCollision v Collision.Bottom = ⟨v.x, -v.y⟩) := by
  constructor
  · simp only [handle_collisions, hothers, List.foldl_cons, List.foldl_nil, h1, h2]
    rcases hc1 with rfl | rfl <;> rcases hc2 with rfl | rfl <;>
      simp [applyCollision]
  · intro v
    refine ⟨?_, ?_, ?_, ?_⟩ <;> simp [applyCollision]

/-- C6 witness: a ball of radius `5` at the origin against two copies of a
box centered at `(3,0)` with extent `(2,2)`; both hits resolve `Left` and
`velocity.x` is back to `1` after the tick. -/
theorem double_horizontal_hit_cancels_witness :
    (handle_collisions ⟨⟨⟨0, 0⟩, ⟨1, 1⟩, ⟨5, 5⟩⟩, [(⟨3, 0⟩, ⟨2, 2⟩), (⟨3, 0⟩, ⟨2, 2⟩)]⟩).ball.velocity.x = 1 :=
  (double_horizontal_hit_cancels
    ⟨⟨⟨0, 0⟩, ⟨1, 1⟩, ⟨5, 5⟩⟩, [(⟨3, 0⟩, ⟨2, 2⟩), (⟨3, 0⟩, ⟨2, 2⟩)]⟩
    (⟨3, 0⟩, ⟨2, 2⟩) (⟨3, 0⟩, ⟨2, 2⟩) Collision.Left Collision.Left rfl
    (by norm_num [collideBox, collide_with_side, BoundingCircle.intersects, distSq,
      Aabb2d.new, Aabb2d.closestPoint, clampQ, min_def, max_def])
    (by norm_num [collideBox, collide_with_side, BoundingCircle.intersects, distSq,
      Aabb2d.new, Aabb2d.closestPoint, clampQ, min_def, max_def])
    (Or.inl rfl) (Or.inl rfl)).1

/-- A concrete execution order the scheduler may pick: it satisfies every
declared `.after` constraint yet runs `detect_scoring` before `move_ball`
and `move_paddles` after `handle_collisions`. -/
def violatingOrder : List Sys :=
  [Sys.handle_player_input, Sys.detect_scoring, Sys.move_ball, Sys.move_ai,
   Sys.reset_ball, Sys.update_score, Sys.project_positions,
   Sys.handle_collisions, Sys.move_paddles, Sys.update_scoreboard]

/-- C7 counterexample: it is not the case that every execution order
respecting the declared constraints runs ball movement before scoring
detection and paddle movement before collision handling — `violatingOrder`
respects all declared constraints and violates both. -/
theorem schedule_not_total_counterexample :
    ¬ (∀ order : List Sys, RespectsSchedule order →
        order.indexOf Sys.move_ball < order.indexOf Sys.detect_scoring ∧
        order.indexOf Sys.move_paddles < order.indexOf Sys.handle_collisions) := by
  intro hall
  have h := hall violatingOrder ⟨by decide, by decide⟩
  revert h
  decide

/-- C7 amended: the schedule only enforces a partial order: collision
handling after ball movement, and the scoring reaction and score tally
after scoring detection, in every admissible execution order; but it does
not order scoring detection after ball movement, nor paddle movement
before collision handling — `violatingOrder` is an admissible order
violating both. -/
theorem schedule_partial_order (order : List Sys) (h : RespectsSchedule order) :
    (order.indexOf Sys.move_ball < order.indexOf Sys.handle_collisions ∧
     order.indexOf Sys.detect_scoring < order.indexOf Sys.reset_ball ∧
     order.indexOf Sys.detect_scoring < order.indexOf Sys.update_score) ∧
    (RespectsSchedule violatingOrder ∧
     violatingOrder.indexOf Sys.detect_scoring < violatingOrder.indexOf Sys.move_ball ∧
     violatingOrder.indexOf Sys.handle_collisions < violatingOrder.indexOf Sys.move_paddles) := by
  refine ⟨⟨?_, ?_, ?_⟩, ⟨⟨by decide, by decide⟩, by decide, by decide⟩⟩
  · exact h.2 (Sys.move_ball, Sys.handle_collisions) (by decide)
  · exact h.2 (Sys.detect_scoring, Sys.reset_ball) (by decide)
  · exact h.2 (Sys.detect_scoring, Sys.update_score) (by decide)

/-- C7 amended witness: the registration order itself is an admissible
execution order, and in it the three enforced edges hold. -/
theorem schedule_partial_order_witness :
    updateSystems.indexOf Sys.move_ball < updateSystems.indexOf Sys.handle_collisions ∧
    updateSystems.indexOf Sys.detect_scoring < updateSystems.indexOf Sys.reset_ball ∧
    updateSystems.indexOf Sys.detect_scoring < updateSystems.indexOf Sys.update_score :=
  (schedule_partial_order updateSystems ⟨List.Perm.refl _, by decide⟩).1

/-- Helper: each event can grow a counter by at most one, so a counter
grows by at most the number of events processed. -/
theorem update_score_le (s : Score) (events : List Scorer) :
    (update_score s events).player ≤ s.player + events.length ∧
    (update_score s events).ai ≤ s.ai + events.length := by
  induction events generalizing s with
  | nil => simp [update_score]
  | cons e tl ih =>
    have step : update_score s (e :: tl) = update_score (updateScoreOnEvent s e) tl := rfl
    have hb : (updateScoreOnEvent s e).player ≤ s.player + 1 ∧
        (updateScoreOnEvent s e).ai ≤ s.ai + 1 := by
      cases e
      · exact ⟨Nat.le_succ _, Nat.mod_le _ _⟩
      · exact ⟨Nat.mod_le _ _, Nat.le_succ _⟩
    have h := ih (updateScoreOnEvent s e)
    rw [step]
    simp only [List.length_cons]
    have h1 := h.1
    have h2 := h.2
    have hb1 := hb.1
    have hb2 := hb.2
    exact ⟨by omega, by omega⟩

/-- Helper: while neither counter can reach the wrap bound, the total score
grows by exactly the number of events processed. -/
theorem update_score_sum_exact (events : List Scorer) :
    ∀ s : Score, s.player + events.length < U32MOD → s.ai + events.length < U32MOD →
      (update_score s events).player + (update_score s events).ai =
        s.player + s.ai + events.length := by
  induction events with
  | nil => intro s _ _; simp [update_score]
  | cons e tl ih =>
    intro s hp ha
    simp only [List.length_cons] at hp ha
    have step : update_score s (e :: tl) = update_score (updateScoreOnEvent s e) tl := rfl
    rw [step]
    simp only [List.length_cons]
    cases e with
    | Ai =>
      have hstep : updateScoreOnEvent s Scorer.Ai = ⟨s.player, s.ai + 1⟩ := by
        simp [updateScoreOnEvent, Nat.mod_eq_of_lt (by omega : s.ai + 1 < U32MOD)]
      rw [hstep]
      have h := ih ⟨s.player, s.ai + 1⟩ (by simp; omega) (by simp; omega)
      simp only at h
      omega
    | Player =>
      have hstep : updateScoreOnEvent s Scorer.Player = ⟨s.player + 1, s.ai⟩ := by
        simp [updateScoreOnEvent, Nat.mod_eq_of_lt (by omega : s.player + 1 < U32MOD)]
      rw [hstep]
      have h := ih ⟨s.player + 1, s.ai⟩ (by simp; omega) (by simp; omega)
      simp only at h
      omega

/-- C8 counterexample: at a counter value of `2^32 - 1` the next event of
that kind wraps the `u32` to `0` — the counter is not incremented by one
and strictly decreases, refuting the unbounded lifetime monotonicity. -/
theorem update_score_wrap_counterexample :
    (updateScoreOnEvent ⟨0, U32MOD - 1⟩ Scorer.Ai).ai = 0 ∧
    (updateScoreOnEvent ⟨0, U32MOD - 1⟩ Scorer.Ai).ai <
      (⟨0, U32MOD - 1⟩ : Score).ai ∧
    (updateScoreOnEvent ⟨0, U32MOD - 1⟩ Scorer.Ai).ai ≠
      (⟨0, U32MOD - 1⟩ : Score).ai + 1 := by
  have h : (U32MOD - 1 + 1) % U32MOD = 0 := by norm_num [U32MOD]
  refine ⟨?_, ?_, ?_⟩
  · simp [updateScoreOnEvent, h]
  · simp only [updateScoreOnEvent, h]
    norm_num [U32MOD]
  · simp only [updateScoreOnEvent, h]
    norm_num [U32MOD]

/-- C8 amended: each scoring event writes exactly one of the two `u32`
counters, incrementing it by one modulo `2^32` and leaving the other
untouched; for every process lifetime of fewer than `2^32` scoring events,
`N` events from the empty initial score leave `player + ai = N`, and each
counter is monotonically non-decreasing. -/
theorem update_score_spec_u32 :
    (∀ (s : Score) (e : Scorer),
      (e = Scorer.Ai → updateScoreOnEvent s e = ⟨s.player, (s.ai + 1) % U32MOD⟩) ∧
      (e = Scorer.Player → updateScoreOnEvent s e = ⟨(s.player + 1) % U32MOD, s.ai⟩)) ∧
    (∀ events : List Scorer, events.length < U32MOD →
      (update_score ⟨0, 0⟩ events).player + (update_score ⟨0, 0⟩ events).ai =
        events.length) ∧
    (∀ (events : List Scorer) (e : Scorer), events.length + 1 < U32MOD →
      (update_score ⟨0, 0⟩ events).player ≤
        (update_score ⟨0, 0⟩ (events ++ [e])).player ∧
      (update_score ⟨0, 0⟩ events).ai ≤
        (update_score ⟨0, 0⟩ (events ++ [e])).ai) := by
  refine ⟨fun s e => ⟨fun he => ?_, fun he => ?_⟩, fun events hlen => ?_,
    fun events e hlen => ?_⟩
  · subst he; rfl
  · subst he; rfl
  · have h := update_score_sum_exact events ⟨0, 0⟩ (by simpa using hlen)
      (by simpa using hlen)
    simpa using h
  · have happ : update_score ⟨0, 0⟩ (events ++ [e]) =
        updateScoreOnEvent (update_score ⟨0, 0⟩ events) e := by
      simp [update_score, List.foldl_append]
    have hb := update_score_le ⟨0, 0⟩ events
    simp only at hb
    rw [happ]
    cases e
    · refine ⟨le_refl _, ?_⟩
      have hmod : ((update_score ⟨0, 0⟩ events).ai + 1) % U32MOD =
          (update_score ⟨0, 0⟩ events).ai + 1 :=
        Nat.mod_eq_of_lt (by omega)
      simp only [updateScoreOnEvent, hmod]
      omega
    · refine ⟨?_, le_refl _⟩
      have hmod : ((update_score ⟨0, 0⟩ events).player + 1) % U32MOD =
          (update_score ⟨0, 0⟩ events).player + 1 :=
        Nat.mod_eq_of_lt (by omega)
      simp only [updateScoreOnEvent, hmod]
      omega

/-- C8 amended witness: one `Scored(Ai)` event on the empty score yields
`(0, 1)`, and the two-event sequence `Ai, Player` totals `2`. -/
theorem update_score_spec_u32_witness :
    updateScoreOnEvent ⟨0, 0⟩ Scorer.Ai = ⟨0, 1⟩ ∧
    (update_score ⟨0, 0⟩ [Scorer.Ai, Scorer.Player]).player +
      (update_score ⟨0, 0⟩ [Scorer.Ai, Scorer.Player]).ai = 2 := by
  constructor
  · have h := (update_score_spec_u32.1 ⟨0, 0⟩ Scorer.Ai).1 rfl
    simpa [U32MOD] using h
  · exact update_score_spec_u32.2.1 [Scorer.Ai, Scorer.Player] (by norm_num [U32MOD])

/-- C9: one run of `handle_collisions` leaves every `Position` and `Shape`
(the ball's and every other entity's) exactly unchanged; only the ball's
`Velocity` is written. -/
theorem handle_collisions_frame (s : GameState) :
    (handle_collisions s).ball.position = s.ball.position ∧
    (handle_collisions s).ball.shape = s.ball.shape ∧
    (handle_collisions s).others = s.others :=
  ⟨rfl, rfl, rfl⟩

/-- Helper: one velocity reflection preserves both components' absolute
values. -/
theorem applyCollision_abs (v : Vec2) (c : Collision) :
    |(applyCollision v c).x| = |v.x| ∧ |(applyCollision v c).y| = |v.y| := by
  cases c <;> simp [applyCollision, abs_mul]

/-- Helper: a full collision pass preserves both velocity components'
absolute values. -/
theorem handle_collisions_abs (b : BallState) (others : List (Vec2 × Vec2)) :
    |(handle_collisions ⟨b, others⟩).ball.velocity.x| = |b.velocity.x| ∧
    |(handle_collisions ⟨b, others⟩).ball.velocity.y| = |b.velocity.y| := by
  simp only [handle_collisions]
  suffices h : ∀ v : Vec2,
      |(others.foldl
        (fun v other =>
          match collideBox b other with
          | some collision => applyCollision v collision
          | none => v) v).x| = |v.x| ∧
      |(others.foldl
        (fun v other =>
          match collideBox b other with
          | some collision => applyCollision v collision
          | none => v) v).y| = |v.y| by
    exact h b.velocity
  induction others with
  | nil => intro v; exact ⟨rfl, rfl⟩
  | cons hd tl ih =>
    intro v
    simp only [List.foldl_cons]
    rcases hcb : collideBox b hd with _ | c
    · simpa [hcb] using ih v
    · have h1 := applyCollision_abs v c
      have h2 := ih (applyCollision v c)
      simp only [hcb]
      exact ⟨h2.1.trans h1.1, h2.2.trans h1.2⟩

/-- Helper: the scoring reset preserves unit velocity components. -/
theorem reset_ball_abs (b : BallState) (events : List Scorer)
    (hb : |b.velocity.x| = 1 ∧ |b.velocity.y| = 1) :
    |(reset_ball b events).velocity.x| = 1 ∧ |(reset_ball b events).velocity.y| = 1 := by
  induction events generalizing b with
  | nil => exact hb
  | cons e tl ih =>
    have step : reset_ball b (e :: tl) = reset_ball (resetBallOnEvent b e) tl := rfl
    rw [step]
    refine ih (resetBallOnEvent b e) ?_
    cases e <;> norm_num [resetBallOnEvent]

/-- C10: at every reachable ball state, both velocity components have
absolute value exactly `1`: the spawn velocity is `(1,1)`, collisions only
flip component signs, and scoring resets write `(±1, 1)`; no other system
writes the ball's velocity. -/
theorem ball_velocity_unit (b : BallState) (h : BallReachable b) :
    |b.velocity.x| = 1 ∧ |b.velocity.y| = 1 := by
  induction h with
  | init => norm_num [spawnedBall]
  | move _ ih => simpa [move_ball] using ih
  | @collide b others _ ih =>
    have h := handle_collisions_abs b others
    exact ⟨h.1.trans ih.1, h.2.trans ih.2⟩
  | reset events _ ih => exact reset_ball_abs _ events ih

/-- C10 witness: the spawned ball is reachable and has unit components. -/
theorem ball_velocity_unit_witness :
    |spawnedBall.velocity.x| = 1 ∧ |spawnedBall.velocity.y| = 1 :=
  ball_velocity_unit spawnedBall BallReachable.init

end Pong

